import Mathlib

/-!
Shallow embedding of the learning-engine core of the AI-Banking-Risk-Training-Bot
repository: the persistence layer (src/core/database.py over src/core/models.py),
the progress/unlock services (src/services/progress_service.py,
src/bot/keyboards/menu_keyboards.py), the quiz flow (src/bot/handlers/quiz_handler.py,
src/services/quiz_service.py), the adaptive question supplier
(src/services/adaptive_content_service.py) and the user-analysis pipeline
(src/services/user_analysis_service.py).

Conventions: machine floats of the source are modelled as exact rationals (ℚ);
`datetime.utcnow()` is threaded through the operations as an abstract tick
`now : Nat`; SQLAlchemy tables are association lists kept in insertion order,
`query(...).first()` is `List.find?`; one call through `DatabaseService.get_session`
is one state transition (one transaction).  Python dict keys can be `int` or `str`
at runtime; they are modelled by `Sum Nat String` where the source mixes them.
-/

namespace RiskBot

/-! ### Data model: src/core/models.py -/

/-- Row of table `lesson_progress` (class `LessonProgress`, src/core/models.py). -/
structure LessonProgress where
  user_id : String
  topic_id : String
  lesson_id : Nat
  is_completed : Bool := false
  attempts : Nat := 0
  best_score : ℚ := 0
  last_attempt_score : ℚ := 0
  started_at : Option Nat := none
  completed_at : Option Nat := none
  last_attempt_at : Option Nat := none
deriving DecidableEq

/-- Row of table `user_progress` (class `UserProgress`, src/core/models.py). -/
structure UserProgress where
  user_id : String
  username : Option String := none
  first_name : Option String := none
  last_name : Option String := none
  total_lessons_completed : Nat := 0
  total_score : ℚ := 0
  current_topic : Option String := none
  current_lesson : Nat := 1
  last_activity : Nat := 0
deriving DecidableEq

/-- One answer record appended by `handle_quiz_answer` (src/bot/handlers/quiz_handler.py). -/
structure AnswerRecord where
  question_index : Nat
  user_answer : Nat
  correct_answer : Nat
  is_correct : Bool
deriving DecidableEq

/-- Pydantic model `GeneratedQuestion` (src/core/models.py); also the shape of the
question dicts stored in a quiz session. -/
structure GeneratedQuestion where
  question : String
  options : List String
  correct_answer : Nat
  explanation : String
  source_context : String
  difficulty : String
  confidence_score : ℚ
deriving DecidableEq

/-- Row of table `quiz_sessions` (class `QuizSession`, src/core/models.py). -/
structure QuizSession where
  id : Nat
  user_id : String
  topic_id : String
  lesson_id : Nat
  questions : List GeneratedQuestion
  answers : List AnswerRecord := []
  current_question : Nat := 0
  is_completed : Bool := false
  score : ℚ := 0
  started_at : Nat := 0
  completed_at : Option Nat := none
deriving DecidableEq

/-- Pydantic model `UserData` (src/core/models.py). -/
structure UserData where
  user_id : String
  username : Option String := none
  first_name : Option String := none
  last_name : Option String := none
deriving DecidableEq

/-- The whole persisted state reachable through `DatabaseService`.
`next_session_id` models the autoincrement primary key of `quiz_sessions`. -/
structure Db where
  users : List UserProgress := []
  lesson_progress : List LessonProgress := []
  quiz_sessions : List QuizSession := []
  next_session_id : Nat := 1
deriving DecidableEq

/-- The empty database (fresh deployment, `Base.metadata.create_all`). -/
def Db.empty : Db := {}

/-! ### Python-dict helpers -/

/-- A Python dict key as it occurs at runtime in `topics_progress[...]["lessons"]`:
`get_user_progress_summary` stores `int` keys, `progress_service` probes `str` keys. -/
abbrev PyKey := Sum Nat String

/-- Python `d[k] = v` on an insertion-ordered dict modelled as an association list:
overwrite in place if the key exists, else append. -/
def dictInsert [BEq κ] (k : κ) (v : ν) : List (κ × ν) → List (κ × ν)
  | [] => [(k, v)]
  | (k', v') :: rest => if k == k' then (k, v) :: rest else (k', v') :: dictInsert k v rest

/-- Python `d.get(k)` on an association list. -/
def dictGet? [BEq κ] (k : κ) (l : List (κ × ν)) : Option ν :=
  (l.find? (fun p => p.1 == k)).map (·.2)

/-- Python `k in d` on an association list. -/
def dictMem [BEq κ] (k : κ) (l : List (κ × ν)) : Bool :=
  (dictGet? k l).isSome

/-- Replace the first element satisfying `p` by its image under `f`
(SQLAlchemy: mutate the row returned by `.first()`). -/
def replaceFirst (p : α → Bool) (f : α → α) : List α → List α
  | [] => []
  | x :: xs => if p x then f x :: xs else x :: replaceFirst p f xs

/-! ### Curriculum: config/bot_config.py (not part of src/) and src/core/enums.py -/

/-- `TOPIC_ORDER` from src/core/enums.py. -/
def TOPIC_ORDER : List String :=
  ["основы_рисков", "критичность_процессов", "оценка_рисков"]

/-- Modelled from the spec: `LEARNING_STRUCTURE` lives in config/bot_config.py,
which is not among the repository files under src/; the spec describes it as the
ordered curriculum of topics, each an ordered list of lessons with numeric ids.
Topic ids and order are `TOPIC_ORDER` (src/core/enums.py); the callers in src pin
lesson ids starting at 1 and the final position ("оценка_рисков", lesson 7,
src/core/database.py `_find_next_available_position`).  Each entry is
(topic_id, list of lesson ids). -/
def LEARNING_STRUCTURE : List (String × List Nat) :=
  [("основы_рисков", [1, 2, 3]),
   ("критичность_процессов", [1, 2, 3]),
   ("оценка_рисков", [1, 2, 3, 4, 5, 6, 7])]

/-- `len(LEARNING_STRUCTURE[topic_id]["lessons"])`; 0 when the topic is unknown. -/
def totalLessons (topic_id : String) : Nat :=
  ((dictGet? topic_id LEARNING_STRUCTURE).getD []).length

/-- `settings.min_score_to_pass` (src/config/settings.py line 68, default 67.0). -/
def min_score_to_pass : ℚ := 67

/-- `settings.questions_per_lesson` (src/config/settings.py, default 3). -/
def questions_per_lesson : Nat := 3

/-! ### DatabaseService: src/core/database.py -/

/-- `session.query(UserProgress).filter(user_id == uid).first()`. -/
def findUser (db : Db) (uid : String) : Option UserProgress :=
  db.users.find? (fun u => u.user_id == uid)

/-- Key match for one `lesson_progress` row. -/
def lpKey (uid tid : String) (lid : Nat) (r : LessonProgress) : Bool :=
  r.user_id == uid && r.topic_id == tid && r.lesson_id == lid

/-- `DatabaseService.get_lesson_progress`. -/
def get_lesson_progress (db : Db) (uid tid : String) (lid : Nat) : Option LessonProgress :=
  db.lesson_progress.find? (lpKey uid tid lid)

/-- `DatabaseService.get_or_create_user` (state effect). -/
def get_or_create_user (db : Db) (ud : UserData) (now : Nat) : Db :=
  match findUser db ud.user_id with
  | none =>
      { db with users := db.users ++
          [{ user_id := ud.user_id, username := ud.username, first_name := ud.first_name,
             last_name := ud.last_name, current_topic := some "основы_рисков",
             current_lesson := 1, last_activity := now }] }
  | some _ =>
      let users1 := replaceFirst (fun u => u.user_id == ud.user_id)
        (fun u => { u with username := ud.username, first_name := ud.first_name,
                           last_name := ud.last_name, last_activity := now }) db.users
      { db with users := users1 }

/-- `DatabaseService.get_or_create_lesson_progress` (state effect). -/
def get_or_create_lesson_progress (db : Db) (uid tid : String) (lid : Nat) (now : Nat) : Db :=
  match get_lesson_progress db uid tid lid with
  | some _ => db
  | none =>
      { db with lesson_progress := db.lesson_progress ++
          [{ user_id := uid, topic_id := tid, lesson_id := lid, started_at := some now,
             last_attempt_at := some now }] }

/-- `DatabaseService._find_next_available_position`: first (topic, lesson) in
curriculum order without a completed row among the rows its session queries can
see; ("оценка_рисков", 7) when none remain. -/
def find_next_available_position (rows : List LessonProgress) (uid : String) :
    String × Nat :=
  (LEARNING_STRUCTURE.findSome? (fun tl =>
    tl.2.findSome? (fun lid =>
      match rows.find? (fun r => lpKey uid tl.1 lid r && r.is_completed) with
      | some _ => none
      | none => some (tl.1, lid)))).getD ("оценка_рисков", 7)

/-- Rows counted by `_update_user_total_progress`: the user's completed rows. -/
def completedRows (rows : List LessonProgress) (uid : String) : List LessonProgress :=
  rows.filter (fun r => r.user_id == uid && r.is_completed)

/-- `count(lesson_progress where user_id=uid and is_completed=true)`. -/
def countCompleted (rows : List LessonProgress) (uid : String) : Nat :=
  (completedRows rows uid).length

/-- `func.avg(best_score)` over the user's completed rows, with the
`if avg_score_result else 0.0` fallback of the source. -/
def avgBestScore (rows : List LessonProgress) (uid : String) : ℚ :=
  let c := completedRows rows uid
  if c.isEmpty then 0 else (c.map (·.best_score)).sum / c.length

/-- `DatabaseService._update_user_total_progress`.  The session factory sets
`autoflush=False` (src/core/database.py line 29), so the COUNT, AVG and
next-position queries this method issues are evaluated by SQL against the rows
as last flushed to the database — `readRows` — and do not see the pending
in-session mutation of the lesson row; only the `UserProgress` row write joins
the transaction state `db`. -/
def update_user_total_progress (db : Db) (readRows : List LessonProgress)
    (uid : String) (now : Nat) : Db :=
  match findUser db uid with
  | none => db
  | some _ =>
      let next := find_next_available_position readRows uid
      let users1 := replaceFirst (fun u => u.user_id == uid)
        (fun u => { u with
          total_lessons_completed := countCompleted readRows uid,
          total_score := avgBestScore readRows uid,
          last_activity := now,
          current_topic := some next.1,
          current_lesson := next.2 }) db.users
      { db with users := users1 }

/-- The row mutation block of `update_lesson_progress`: bump `attempts`, record
the attempt score and time, raise `best_score` when beaten, and complete the
lesson monotonically. -/
def updAttempt (score : ℚ) (is_completed : Bool) (now : Nat)
    (p : LessonProgress) : LessonProgress :=
  { p with
    attempts := p.attempts + 1,
    last_attempt_score := score,
    last_attempt_at := some now,
    best_score := if p.best_score < score then score else p.best_score,
    is_completed := p.is_completed || is_completed,
    completed_at := if is_completed && !p.is_completed then some now
                    else p.completed_at }

/-- `DatabaseService.update_lesson_progress`: record an attempt and, when the
lesson completes for the first time, recompute the user aggregates.  The row
mutation is still an unflushed pending change when `_update_user_total_progress`
runs (autoflush=False), so the recompute reads `db.lesson_progress` — the rows
as of the start of the transaction — while its user-row write lands on `db1`. -/
def update_lesson_progress (db : Db) (uid tid : String) (lid : Nat)
    (score : ℚ) (is_completed : Bool) (now : Nat) : Db × Bool :=
  match get_lesson_progress db uid tid lid with
  | none => (db, false)
  | some progress =>
      let was_completed_before := progress.is_completed
      let rows1 := replaceFirst (lpKey uid tid lid) (updAttempt score is_completed now)
        db.lesson_progress
      let db1 : Db := { db with lesson_progress := rows1 }
      let db2 := if is_completed && !was_completed_before
                 then update_user_total_progress db1 db.lesson_progress uid now else db1
      (db2, true)

/-- `DatabaseService.create_quiz_session`: atomically discard the prior
incomplete session for the same key and insert a fresh one. -/
def create_quiz_session (db : Db) (uid tid : String) (lid : Nat)
    (questions : List GeneratedQuestion) (now : Nat) : Db × Nat :=
  let kept := db.quiz_sessions.filter (fun s =>
    !(s.user_id == uid && s.topic_id == tid && s.lesson_id == lid && !s.is_completed))
  ({ db with
      quiz_sessions := kept ++
        [{ id := db.next_session_id, user_id := uid, topic_id := tid, lesson_id := lid,
           questions := questions, started_at := now }],
      next_session_id := db.next_session_id + 1 },
   db.next_session_id)

/-- `DatabaseService.get_active_quiz_session`: first not-completed session of the user. -/
def get_active_quiz_session (db : Db) (uid : String) : Option QuizSession :=
  db.quiz_sessions.find? (fun s => s.user_id == uid && !s.is_completed)

/-- `DatabaseService.update_quiz_session(answers=...)`. -/
def update_quiz_session_answers (db : Db) (sid : Nat) (answers : List AnswerRecord) : Db :=
  let sess1 := replaceFirst (fun s => s.id == sid)
    (fun s => { s with answers := answers }) db.quiz_sessions
  { db with quiz_sessions := sess1 }

/-- `DatabaseService.update_quiz_session(current_question=...)`. -/
def update_quiz_session_current (db : Db) (sid n : Nat) : Db :=
  let sess1 := replaceFirst (fun s => s.id == sid)
    (fun s => { s with current_question := n }) db.quiz_sessions
  { db with quiz_sessions := sess1 }

/-- `DatabaseService.complete_quiz_session`; `completeSessionRow` is the session
mutation it applies. -/
def completeSessionRow (final_score : ℚ) (now : Nat) (s : QuizSession) : QuizSession :=
  { s with is_completed := true, score := final_score, completed_at := some now }

/-- `DatabaseService.complete_quiz_session` body. -/
def complete_quiz_session (db : Db) (sid : Nat) (final_score : ℚ) (now : Nat) : Db × Bool :=
  match db.quiz_sessions.find? (fun s => s.id == sid) with
  | none => (db, false)
  | some _ =>
      let sess1 := replaceFirst (fun s => s.id == sid)
        (completeSessionRow final_score now) db.quiz_sessions
      ({ db with quiz_sessions := sess1 }, true)

/-- `DatabaseService.update_user_progress(current_topic=..., current_lesson=...)`
as invoked by `_update_user_current_position` (src/bot/handlers/quiz_handler.py). -/
def update_user_position (db : Db) (uid topic : String) (lesson now : Nat) : Db :=
  match findUser db uid with
  | none => db
  | some _ =>
      let users1 := replaceFirst (fun u => u.user_id == uid)
        (fun u => { u with current_topic := some topic, current_lesson := lesson,
                           last_activity := now }) db.users
      { db with users := users1 }

/-- `DatabaseService.reset_user_progress`: one transaction deleting the user's
lesson rows and quiz sessions and zeroing the aggregates; `resetUserRow` is the
row mutation applied to the `UserProgress` row. -/
def resetUserRow (now : Nat) (u : UserProgress) : UserProgress :=
  { u with total_lessons_completed := 0, total_score := 0,
           current_topic := some "основы_рисков", current_lesson := 1,
           last_activity := now }

/-- `DatabaseService.reset_user_progress` body. -/
def reset_user_progress (db : Db) (uid : String) (now : Nat) : Db :=
  let users1 := replaceFirst (fun u => u.user_id == uid) (resetUserRow now) db.users
  { db with
      lesson_progress := db.lesson_progress.filter (fun r => !(r.user_id == uid)),
      quiz_sessions := db.quiz_sessions.filter (fun s => !(s.user_id == uid)),
      users := users1 }

/-! ### Progress summary: `DatabaseService.get_user_progress_summary` -/

/-- One entry of `topics_progress[topic]["lessons"]`. -/
structure LessonInfo where
  is_completed : Bool
  best_score : ℚ
  attempts : Nat
  last_attempt_at : Option Nat
deriving DecidableEq

/-- One entry of `topics_progress`. -/
structure TopicProgressData where
  completed_lessons : Nat := 0
  total_attempts : Nat := 0
  average_score : ℚ := 0
  lessons : List (PyKey × LessonInfo) := []
deriving DecidableEq

/-- Pydantic model `UserProgressResponse` (src/core/models.py).  The `lessons`
dicts sit inside `Dict[str, Any]` values, so pydantic leaves their `int` keys
untouched (hence `PyKey`). -/
structure UserProgressResponse where
  user_id : String
  total_lessons_completed : Nat
  total_score : ℚ
  current_topic : Option String
  current_lesson : Nat
  topics_progress : List (String × TopicProgressData)
deriving DecidableEq

/-- Body of the grouping loop of `get_user_progress_summary`: the lesson key is
stored as the `int` `lesson_id` (source comment: use lesson_id as int, not str). -/
def summaryAddRow (tp : List (String × TopicProgressData)) (r : LessonProgress) :
    List (String × TopicProgressData) :=
  let cur := (dictGet? r.topic_id tp).getD {}
  let info : LessonInfo :=
    { is_completed := r.is_completed, best_score := r.best_score,
      attempts := r.attempts, last_attempt_at := r.last_attempt_at }
  let cur := { cur with
               lessons := dictInsert (Sum.inl r.lesson_id : PyKey) info cur.lessons,
               completed_lessons := cur.completed_lessons + (if r.is_completed then 1 else 0),
               total_attempts := cur.total_attempts + r.attempts }
  dictInsert r.topic_id cur tp

/-- Second pass of `get_user_progress_summary`: per-topic mean of `best_score`
over the completed lessons. -/
def summaryAverages (tp : List (String × TopicProgressData)) :
    List (String × TopicProgressData) :=
  tp.map (fun t =>
    let completed := t.2.lessons.filter (fun l => l.2.is_completed)
    if completed.isEmpty then t
    else (t.1, { t.2 with
                 average_score := (completed.map (fun l => l.2.best_score)).sum / completed.length }))

/-- `DatabaseService.get_user_progress_summary`: an unknown user yields the
empty profile rather than an error. -/
def get_user_progress_summary (db : Db) (uid : String) : UserProgressResponse :=
  match findUser db uid with
  | none =>
      { user_id := uid, total_lessons_completed := 0, total_score := 0,
        current_topic := none, current_lesson := 1, topics_progress := [] }
  | some user =>
      let rows := db.lesson_progress.filter (fun r => r.user_id == uid)
      { user_id := uid,
        total_lessons_completed := user.total_lessons_completed,
        total_score := user.total_score,
        current_topic := user.current_topic,
        current_lesson := user.current_lesson,
        topics_progress := summaryAverages (rows.foldl summaryAddRow []) }

/-! ### ProgressService: src/services/progress_service.py -/

/-- `TopicStatus` (src/core/enums.py). -/
inductive TopicStatus
  | locked
  | available
  | in_progress
  | completed
deriving DecidableEq

/-- The fields of `ProgressService.calculate_topic_progress` the unlock logic
reads; `none` is the `{"error": "Topic not found"}` dict. -/
structure TopicCalc where
  status : TopicStatus
  completed_lessons : Nat
  total_lessons : Nat
  average_score : ℚ
  attempts : Nat
deriving DecidableEq

/-- `ProgressService.calculate_topic_progress`. -/
def calculate_topic_progress (db : Db) (uid tid : String) : Option TopicCalc :=
  if !(dictMem tid LEARNING_STRUCTURE) then none
  else
    let progress := get_user_progress_summary db uid
    let total := totalLessons tid
    match dictGet? tid progress.topics_progress with
    | none =>
        some { status := TopicStatus.available, completed_lessons := 0,
               total_lessons := total, average_score := 0, attempts := 0 }
    | some t =>
        let status := if t.completed_lessons == 0 then TopicStatus.available
                      else if t.completed_lessons == total then TopicStatus.completed
                      else TopicStatus.in_progress
        some { status := status, completed_lessons := t.completed_lessons,
               total_lessons := total, average_score := t.average_score,
               attempts := t.total_attempts }

/-- `prev_stats.get("status") == TopicStatus.COMPLETED.value` (an error dict has
no status and compares unequal). -/
def statusCompleted (c : Option TopicCalc) : Bool :=
  match c with
  | some t => t.status == TopicStatus.completed
  | none => false

/-- The for/break loop of `ProgressService._get_available_topics` over
`TOPIC_ORDER[1:]`, carrying the previous topic. -/
def availTopicsLoop (db : Db) (uid : String) : List String → String → List String
  | [], _ => []
  | t :: rest, prev =>
      if statusCompleted (calculate_topic_progress db uid prev)
      then t :: availTopicsLoop db uid rest t
      else []

/-- `ProgressService._get_available_topics`: the first topic is always listed;
each later topic only while every previous topic has status COMPLETED. -/
def progressService_get_available_topics (db : Db) (uid : String) : List String :=
  "основы_рисков" :: availTopicsLoop db uid (TOPIC_ORDER.drop 1) (TOPIC_ORDER.headD "")

/-- `ProgressService._get_available_lessons`: probes `lessons_data` with the
string key `str(lesson_id)` (`Sum.inr`), while the summary stores `int` keys. -/
def progressService_get_available_lessons (progress : UserProgressResponse)
    (topic_id : String) : List Nat :=
  match dictGet? topic_id progress.topics_progress with
  | none => [1]
  | some tp =>
      let lessons_data := tp.lessons
      let total := totalLessons topic_id
      (List.range' 1 total).foldl (fun available lesson_id =>
        match dictGet? (Sum.inr (toString lesson_id) : PyKey) lessons_data with
        | some info =>
            if info.is_completed then
              let next := lesson_id + 1
              if next ≤ total && !(available.contains next) then available ++ [next]
              else available
            else available
        | none => available) [1]

/-! ### menu_keyboards unlock logic: src/bot/keyboards/menu_keyboards.py -/

/-- `menu_keyboards._get_available_lessons`: same unlock rule, but reading
`lessons_data.get(lesson_id)` with the `int` key (source comment: without str). -/
def kb_get_available_lessons (user_progress : Option UserProgressResponse)
    (topic_id : String) : List Nat :=
  match user_progress with
  | none => [1]
  | some up =>
      match dictGet? topic_id up.topics_progress with
      | none => [1]
      | some tp =>
          let lessons_data := tp.lessons
          let total := totalLessons topic_id
          (List.range' 1 total).foldl (fun available lesson_id =>
            match dictGet? (Sum.inl lesson_id : PyKey) lessons_data with
            | some info =>
                if info.is_completed then
                  let next := lesson_id + 1
                  if next ≤ total && !(available.contains next) then available ++ [next]
                  else available
                else available
            | none => available) [1]

/-! ### Quiz flow: src/bot/handlers/quiz_handler.py and src/services/quiz_service.py -/

/-- Dataclass `QuizQuestion` (src/services/quiz_service.py). -/
structure QuizQuestion where
  question : String
  options : List String
  correct_answer : Nat
  explanation : String
  topic : String
  difficulty : String := "medium"
deriving DecidableEq

/-- `QuizService.check_answer`. -/
def check_answer (q : QuizQuestion) (user_answer : Nat) : Bool :=
  q.correct_answer == user_answer

/-- `QuizService.calculate_score`: Python `int((correct_count / len) * 100)`
truncates toward zero; the quotient is nonnegative, so this is the floor
(the float is modelled as the exact rational). -/
def calculate_score (questions : List QuizQuestion) (user_answers : List Nat) : ℤ :=
  if questions.length ≠ user_answers.length then 0
  else
    let correct_count :=
      ((questions.zip user_answers).filter (fun p => p.1.correct_answer == p.2)).length
    Int.floor ((correct_count : ℚ) / questions.length * 100)

/-- `quiz_handler._check_topic_completion`. -/
def check_topic_completion (db : Db) (uid tid : String) : Bool :=
  if !(dictMem tid LEARNING_STRUCTURE) then false
  else
    let total := totalLessons tid
    let summary := get_user_progress_summary db uid
    match dictGet? tid summary.topics_progress with
    | some tp => decide (total ≤ tp.completed_lessons)
    | none => false

/-- `quiz_handler._update_user_current_position`. -/
def update_user_current_position (db : Db) (uid completed_topic : String)
    (completed_lesson now : Nat) : Db :=
  if !(dictMem completed_topic LEARNING_STRUCTURE) then db
  else
    let total := totalLessons completed_topic
    if completed_lesson < total then
      update_user_position db uid completed_topic (completed_lesson + 1) now
    else
      match TOPIC_ORDER.findIdx? (fun t => t == completed_topic) with
      | none => db
      | some i =>
          if i + 1 < TOPIC_ORDER.length then
            update_user_position db uid (TOPIC_ORDER.getD (i + 1) "") 1 now
          else db

/-- `quiz_handler.show_quiz_result`, the completion operation of a session:
`session_id` is `context.user_data.get("quiz_session_id")`, `correct_count` the
context counter.  Score is `(correct_count / total) * 100` with no rounding;
an absent or mismatching active session aborts with an error and no state
change. -/
def show_quiz_result (db : Db) (uid : String) (session_id : Option Nat)
    (correct_count : Nat) (now : Nat) : Db × Except String (ℚ × Bool) :=
  match session_id with
  | none => (db, Except.error "session-not-found")
  | some sid =>
      match get_active_quiz_session db uid with
      | none => (db, Except.error "invalid-session")
      | some s =>
          if s.id ≠ sid then (db, Except.error "invalid-session")
          else
            let total_questions := s.questions.length
            let score : ℚ :=
              if 0 < total_questions then (correct_count : ℚ) / total_questions * 100 else 0
            let passed := decide (min_score_to_pass ≤ score)
            let db1 := (complete_quiz_session db sid score now).1
            let db2 := (update_lesson_progress db1 uid s.topic_id s.lesson_id score passed now).1
            let topic_completed := check_topic_completion db2 uid s.topic_id
            let db3 := if passed && topic_completed
                       then update_user_current_position db2 uid s.topic_id s.lesson_id now
                       else db2
            (db3, Except.ok (score, passed))

/-! ### AdaptiveContentService: src/services/adaptive_content_service.py
The network boundary is a parameter: `llm_available` is whether `_initialize_llm`
produced a client, `docs` the knowledge-base search result, `llm_parsed` the
JSON-decoded LLM response (`none` for a timeout, an exception or a JSON decode
failure).  The two inner quotes of the bank texts are written « » here because
this development cannot carry a straight apostrophe inside a literal. -/

/-- One item of the JSON array decoded from the LLM response; a field is `none`
when the key is absent (the source checks all four keys). -/
structure RawQuestion where
  question : Option String := none
  options : Option (List String) := none
  correct_answer : Option Nat := none
  explanation : Option String := none
deriving DecidableEq

/-- The per-item validation loop of `_generate_questions_with_llm`. -/
def parseRawQuestion (context_text difficulty : String) (q : RawQuestion) :
    Option GeneratedQuestion :=
  match q.question, q.options, q.correct_answer, q.explanation with
  | some qu, some opts, some ca, some ex =>
      some { question := qu, options := opts, correct_answer := ca, explanation := ex,
             source_context := context_text.take 200, difficulty := difficulty,
             confidence_score := 9/10 }
  | _, _, _, _ => none

/-- `AdaptiveContentService._generate_questions_with_llm`: `none` when the
corpus search is empty, the call or the JSON parse fails, or fewer than `count`
valid items come back. -/
def generate_questions_with_llm (docs : List String)
    (llm_parsed : Option (List RawQuestion)) (difficulty : String) (count : Nat) :
    Option (List GeneratedQuestion) :=
  if docs.isEmpty then none
  else
    let context_text := String.intercalate "\n\n" docs
    match llm_parsed with
    | none => none
    | some items =>
        let questions := items.filterMap (parseRawQuestion context_text difficulty)
        if count ≤ questions.length then some questions else none

/-- The literal `fallback_questions` bank of
`AdaptiveContentService._get_fallback_questions`. -/
def fallback_bank : List (String × List (Nat × List GeneratedQuestion)) :=
  [("основы_рисков",
    [(1,
      [{ question := "Что является основной целью оценки риска нарушения непрерывности деятельности?",
         options := ["Выявление и анализ угроз непрерывности",
                     "Увеличение прибыли банка",
                     "Сокращение персонала",
                     "Расширение филиальной сети"],
         correct_answer := 0,
         explanation := "Основная цель - выявление, анализ и оценка угроз, которые могут нарушить операционную устойчивость банка.",
         source_context := "Базовые знания", difficulty := "beginner",
         confidence_score := 9/10 },
       { question := "Кто является инициатором проведения оценки риска нарушения непрерывности?",
         options := ["Владельцы процессов",
                     "УОР (Управление операционных рисков)",
                     "Специализированные подразделения",
                     "Руководство банка"],
         correct_answer := 1,
         explanation := "УОР выступает инициатором проведения оценки, подготавливает данные и верифицирует результаты.",
         source_context := "Базовые знания", difficulty := "beginner",
         confidence_score := 9/10 },
       { question := "Какие источники информации используются для оценки риска?",
         options := ["Только внутренние данные банка",
                     "Только внешние источники информации",
                     "Внутренние и внешние источники информации",
                     "Только данные СМИ"],
         correct_answer := 2,
         explanation := "Для оценки используются как внутренние данные банка, так и внешние источники информации.",
         source_context := "Базовые знания", difficulty := "intermediate",
         confidence_score := 9/10 }]),
     (2,
      [{ question := "Что включают в себя внутренние источники информации для оценки рисков?",
         options := ["Только данные о понесенных убытках",
                     "Данные о убытках, сценарии угроз и информацию об окружении процессов",
                     "Только информацию СМИ",
                     "Только геополитическую обстановку"],
         correct_answer := 1,
         explanation := "Внутренние источники включают данные о понесенных убытках от инцидентов, сценарии угроз от специализированных подразделений и информацию об окружении критически важных процессов.",
         source_context := "Базовые знания", difficulty := "intermediate",
         confidence_score := 9/10 },
       { question := "Какие внешние источники используются для оценки рисков?",
         options := ["Только данные СМИ",
                     "СМИ, геополитическая обстановка и информация о реализации угроз в других организациях",
                     "Только геополитическая обстановка",
                     "Только внутренние отчеты банка"],
         correct_answer := 1,
         explanation := "Внешние источники включают данные СМИ о реализации угроз, геополитическую и эпидемиологическую обстановку, а также информацию о реализации угроз в других организациях.",
         source_context := "Базовые знания", difficulty := "intermediate",
         confidence_score := 9/10 }]),
     (3,
      [{ question := "Что такое инцидент нарушения непрерывности деятельности?",
         options := ["Любое событие в банке",
                     "Инцидент, который вызывает нарушение выполнения бизнес-процессов",
                     "Плановые технические работы",
                     "Обновление программного обеспечения"],
         correct_answer := 1,
         explanation := "Инцидент нарушения непрерывности - это инцидент, который вызывает или может вызвать нарушение/прекращение выполнения и взаимодействие бизнес-процессов.",
         source_context := "Базовые знания", difficulty := "intermediate",
         confidence_score := 9/10 }])]),
   ("критичность_процессов",
    [(1,
      [{ question := "Что является объектом риска нарушения непрерывности деятельности?",
         options := ["Процесс категории «Критически важный»",
                     "Любой бизнес-процесс банка",
                     "Только ИТ-процессы",
                     "Процессы обслуживания клиентов"],
         correct_answer := 0,
         explanation := "Объектом риска является процесс, категорированный как «Критически важный».",
         source_context := "Базовые знания", difficulty := "intermediate",
         confidence_score := 9/10 }]),
     (2,
      [{ question := "Что означает аббревиатура RTO?",
         options := ["Recovery Time Objective",
                     "Risk Transfer Operation",
                     "Rapid Technical Operation",
                     "Resource Time Optimization"],
         correct_answer := 0,
         explanation := "RTO (Recovery Time Objective) - целевое время восстановления процесса.",
         source_context := "Базовые знания", difficulty := "intermediate",
         confidence_score := 9/10 }])])]

/-- `fallback_questions.get(topic, ...).get(lesson_id, [])`. -/
def bank_questions (topic : String) (lesson_id : Nat) : List GeneratedQuestion :=
  (dictGet? lesson_id ((dictGet? topic fallback_bank).getD [])).getD []

/-- The duplicate built by the padding loop; the base is `questions[len % len]`,
i.e. always the first question. -/
def dupQuestion (base : GeneratedQuestion) : GeneratedQuestion :=
  { question := "Дополнительный вопрос: " ++ base.question,
    options := base.options, correct_answer := base.correct_answer,
    explanation := base.explanation, source_context := base.source_context,
    difficulty := base.difficulty, confidence_score := 8/10 }

/-- The generic question appended when the bank is empty. -/
def basicQuestion (topic : String) (n : Nat) : GeneratedQuestion :=
  { question := "Базовый вопрос " ++ toString n ++ " по теме " ++ topic,
    options := ["Вариант 1", "Вариант 2", "Вариант 3", "Вариант 4"],
    correct_answer := 0, explanation := "Базовое объяснение",
    source_context := "Автогенерация", difficulty := "beginner",
    confidence_score := 1/2 }

/-- One iteration of the `while len(questions) < count` padding loop of
`_get_fallback_questions`: duplicate the first question, or append the generic
question when the bank is empty. -/
def pad_step (topic : String) (questions : List GeneratedQuestion) :
    List GeneratedQuestion :=
  match questions with
  | [] => [basicQuestion topic (List.length ([] : List GeneratedQuestion) + 1)]
  | q0 :: rest => (q0 :: rest) ++ [dupQuestion q0]

theorem length_lt_pad_step (topic : String) (questions : List GeneratedQuestion) :
    questions.length < (pad_step topic questions).length := by
  cases questions <;> simp [pad_step]

/-- The `while len(questions) < count` padding loop of `_get_fallback_questions`. -/
def pad_questions (topic : String) (count : Nat) (questions : List GeneratedQuestion) :
    List GeneratedQuestion :=
  if questions.length < count then
    pad_questions topic count (pad_step topic questions)
  else questions
termination_by count - questions.length
decreasing_by
  have := length_lt_pad_step topic questions
  omega

/-- `AdaptiveContentService._get_fallback_questions`: pad, then `[:count]`. -/
def get_fallback_questions (topic : String) (lesson_id count : Nat) :
    List GeneratedQuestion :=
  (pad_questions topic count (bank_questions topic lesson_id)).take count

/-- `AdaptiveContentService.generate_adaptive_questions` with the network
boundary as parameters: try the LLM first, fall back to the static bank when
the tier fails or yields fewer than `count` valid questions. -/
def generate_adaptive_questions (llm_available : Bool) (docs : List String)
    (llm_parsed : Option (List RawQuestion)) (topic : String) (lesson_id : Nat)
    (difficulty : String) (count : Nat) : List GeneratedQuestion :=
  let llm_result := if llm_available
                    then generate_questions_with_llm docs llm_parsed difficulty count
                    else none
  match llm_result with
  | some questions =>
      if !questions.isEmpty && count ≤ questions.length then questions
      else get_fallback_questions topic lesson_id count
  | none => get_fallback_questions topic lesson_id count

/-! ### UserAnalysisService: src/services/user_analysis_service.py -/

/-- The `patterns` dict of `_analyze_learning_patterns`. -/
structure LearningPatterns where
  learning_speed : String
  consistency : String
  strength_areas : List String
  challenge_areas : List String
  preferred_difficulty : String
  engagement_level : String
deriving DecidableEq

/-- `UserAnalysisService._analyze_learning_patterns` over the detailed stats:
`overall_completion`, the per-topic average scores and the user average. -/
def analyze_learning_patterns (overall_completion : ℚ)
    (topics_statistics : List (String × ℚ)) (average_score : ℚ) : LearningPatterns :=
  { learning_speed := if 80 < overall_completion then "fast"
                      else if overall_completion < 40 then "slow" else "normal",
    consistency := "variable",
    strength_areas := (topics_statistics.filter (fun t => decide (85 ≤ t.2))).map (·.1),
    challenge_areas := (topics_statistics.filter (fun t => decide (0 < t.2) && decide (t.2 < 70))).map (·.1),
    preferred_difficulty := if 90 ≤ average_score then "advanced"
                            else if average_score < 65 then "beginner" else "intermediate",
    engagement_level := "medium" }

/-- The `strategy` dict of `_determine_personalization_strategy`. -/
structure PersonalizationStrategy where
  approach : String
  support_level : String
  difficulty_progression : String
deriving DecidableEq

/-- `UserAnalysisService._determine_personalization_strategy`. -/
def determine_personalization_strategy (support_needs : String)
    (patterns : LearningPatterns) : PersonalizationStrategy :=
  { approach := "adaptive",
    support_level := support_needs,
    difficulty_progression := if patterns.learning_speed == "fast" then "accelerated"
                              else if patterns.learning_speed == "slow" then "gentle"
                              else "gradual" }

/-- The `settings` dict of `_configure_content_settings`. -/
structure ContentSettings where
  difficulty : String
  question_count : Nat
  explanation_detail : String
deriving DecidableEq

/-- `UserAnalysisService._configure_content_settings`: the generation difficulty
comes only from `difficulty_progression`; `question_count` is always 3. -/
def configure_content_settings (strategy : PersonalizationStrategy) : ContentSettings :=
  { difficulty := if strategy.difficulty_progression == "accelerated" then "advanced"
                  else if strategy.difficulty_progression == "gentle" then "beginner"
                  else "intermediate",
    question_count := 3,
    explanation_detail := if strategy.support_level == "high" then "detailed"
                          else if strategy.support_level == "low" then "concise"
                          else "medium" }

/-- The difficulty tag that reaches `generate_adaptive_questions` through
`get_full_user_analysis`: analysis, strategy, content settings in sequence. -/
def pipeline_difficulty (overall_completion : ℚ)
    (topics_statistics : List (String × ℚ)) (average_score : ℚ)
    (support_needs : String) : String :=
  (configure_content_settings
    (determine_personalization_strategy support_needs
      (analyze_learning_patterns overall_completion topics_statistics average_score))).difficulty

/-- The fields of `QuestionService._analyze_user_performance` the supplier reads
(src/services/question_service.py). -/
structure UserPerformance where
  average_score : ℚ
  recent_attempts : Nat
  weak_areas : List String
  preferred_difficulty : String
deriving DecidableEq

/-- `QuestionService._analyze_user_performance`. -/
def analyze_user_performance (user_progress : UserProgressResponse)
    (topic_id : String) : UserPerformance :=
  match dictGet? topic_id user_progress.topics_progress with
  | none =>
      { average_score := 70, recent_attempts := 0, weak_areas := [],
        preferred_difficulty := "intermediate" }
  | some tp =>
      let avg := tp.average_score
      { average_score := avg, recent_attempts := min tp.total_attempts 5,
        weak_areas := [],
        preferred_difficulty := if 90 ≤ avg then "advanced"
                                else if avg < 60 then "beginner" else "intermediate" }

/-! ### Helper lemmas on the list primitives -/

theorem replaceFirst_mem {p : α → Bool} {f : α → α} {l : List α} {y : α}
    (hy : y ∈ replaceFirst p f l) :
    y ∈ l ∨ ∃ x ∈ l, p x = true ∧ y = f x := by
  induction l with
  | nil => simp [replaceFirst] at hy
  | cons a as ih =>
      simp only [replaceFirst] at hy
      by_cases hp : p a
      · rw [if_pos hp] at hy
        rcases List.mem_cons.mp hy with h | h
        · exact Or.inr ⟨a, List.mem_cons_self a as, hp, h⟩
        · exact Or.inl (List.mem_cons_of_mem a h)
      · rw [if_neg hp] at hy
        rcases List.mem_cons.mp hy with h | h
        · exact Or.inl (h ▸ List.mem_cons_self a as)
        · rcases ih h with h' | ⟨x, hx, hpx, hyx⟩
          · exact Or.inl (List.mem_cons_of_mem a h')
          · exact Or.inr ⟨x, List.mem_cons_of_mem a hx, hpx, hyx⟩

theorem find?_replaceFirst_self {p : α → Bool} {f : α → α} {l : List α} {x₀ : α}
    (h : l.find? p = some x₀) (hpf : p (f x₀) = true) :
    (replaceFirst p f l).find? p = some (f x₀) := by
  induction l with
  | nil => simp at h
  | cons a as ih =>
      by_cases hp : p a
      · rw [List.find?_cons_of_pos _ hp] at h
        injection h with h
        subst h
        simp [replaceFirst, hp, List.find?_cons_of_pos _ hpf]
      · rw [List.find?_cons_of_neg _ hp] at h
        simp [replaceFirst, hp, List.find?_cons_of_neg _ hp, ih h]

theorem find?_replaceFirst_frame {p q : α → Bool} {f : α → α} {l : List α}
    (h : ∀ x, p x = true → q x = false ∧ q (f x) = false) :
    (replaceFirst p f l).find? q = l.find? q := by
  induction l with
  | nil => rfl
  | cons a as ih =>
      by_cases hp : p a
      · obtain ⟨hqa, hqfa⟩ := h a hp
        rw [replaceFirst, if_pos hp, List.find?_cons_of_neg _ (by simp [hqfa]),
            List.find?_cons_of_neg _ (by simp [hqa])]
      · rw [replaceFirst, if_neg hp]
        by_cases hq : q a
        · rw [List.find?_cons_of_pos _ hq, List.find?_cons_of_pos _ hq]
        · rw [List.find?_cons_of_neg _ hq, List.find?_cons_of_neg _ hq, ih]

theorem filter_length_replaceFirst_of_find? {p q : α → Bool} {f : α → α} {l : List α}
    {x₀ : α} (h : l.find? p = some x₀) (hq : q (f x₀) = q x₀) :
    ((replaceFirst p f l).filter q).length = (l.filter q).length := by
  induction l with
  | nil => simp at h
  | cons a as ih =>
      by_cases hp : p a
      · rw [List.find?_cons_of_pos _ hp] at h
        injection h with h
        subst h
        by_cases hqa : q a <;>
          simp [replaceFirst, hp, List.filter_cons, hqa, hq ▸ hqa, hq]
      · rw [List.find?_cons_of_neg _ hp] at h
        by_cases hqa : q a <;> simp [replaceFirst, hp, List.filter_cons, hqa, ih h]

theorem filter_length_replaceFirst_incr {p q : α → Bool} {f : α → α} {l : List α}
    {x₀ : α} (h : l.find? p = some x₀) (hq0 : q x₀ = false) (hq1 : q (f x₀) = true) :
    ((replaceFirst p f l).filter q).length = (l.filter q).length + 1 := by
  induction l with
  | nil => simp at h
  | cons a as ih =>
      by_cases hp : p a
      · rw [List.find?_cons_of_pos _ hp] at h
        injection h with h
        subst h
        simp [replaceFirst, hp, List.filter_cons, hq0, hq1]
      · rw [List.find?_cons_of_neg _ hp] at h
        by_cases hqa : q a <;>
          simp [replaceFirst, hp, List.filter_cons, hqa, ih h]

theorem map_replaceFirst_key {p : α → Bool} {f : α → α} {k : α → κ} {l : List α}
    (h : ∀ x, p x = true → k (f x) = k x) :
    (replaceFirst p f l).map k = l.map k := by
  induction l with
  | nil => rfl
  | cons a as ih =>
      by_cases hp : p a
      · simp [replaceFirst, hp, h a hp]
      · simp [replaceFirst, hp, ih]

theorem filter_length_filter_out {q a : α → Bool} {l : List α}
    (h : ∀ x, q x = true → a x = true) :
    ((l.filter a).filter q).length = (l.filter q).length := by
  rw [List.filter_filter]
  have hcong : ∀ x ∈ l, (q x && a x) = q x := by
    intro x _
    rcases Bool.eq_false_or_eq_true (q x) with h' | h'
    · simp [h', h x h']
    · simp [h']
  rw [List.filter_congr hcong]

/-! ### C9: missing user yields the well-formed empty summary -/

/-- C9: for every user id with no stored `UserProgress` row, the progress-summary
read returns the well-formed empty summary — `total_lessons_completed = 0`,
`total_score = 0.0`, `current_topic = None`, `current_lesson = 1`, empty
`topics_progress` — rather than raising or returning a missing value. -/
theorem C9_missing_user_empty_summary (db : Db) (uid : String)
    (h : findUser db uid = none) :
    get_user_progress_summary db uid =
      { user_id := uid, total_lessons_completed := 0, total_score := 0,
        current_topic := none, current_lesson := 1, topics_progress := [] } := by
  simp [get_user_progress_summary, h]

/-- Witness for C9 on the empty database. -/
theorem C9_missing_user_empty_summary_witness :
    findUser Db.empty "42" = none ∧
    get_user_progress_summary Db.empty "42" =
      { user_id := "42", total_lessons_completed := 0, total_score := 0,
        current_topic := none, current_lesson := 1, topics_progress := [] } :=
  ⟨rfl, C9_missing_user_empty_summary Db.empty "42" rfl⟩

/-! ### C8: which signal drives the generation difficulty -/

/-- C8 (corrected): the 90/65 average-score thresholds only shape
`preferred_difficulty` inside `_analyze_learning_patterns`; the difficulty tag
that actually parameterizes generation is `content_settings["difficulty"]`,
derived from the completion rate through `learning_speed` and
`difficulty_progression` (`completion > 80 → advanced`,
`completion < 40 → beginner`, else `intermediate`). -/
theorem C8_difficulty_signals (completion avg : ℚ) (stats : List (String × ℚ))
    (support : String) :
    pipeline_difficulty completion stats avg support =
      (if 80 < completion then "advanced"
       else if completion < 40 then "beginner" else "intermediate") ∧
    (analyze_learning_patterns completion stats avg).preferred_difficulty =
      (if 90 ≤ avg then "advanced"
       else if avg < 65 then "beginner" else "intermediate") := by
  constructor
  · by_cases h1 : (80 : ℚ) < completion <;> by_cases h2 : completion < 40 <;>
      simp [pipeline_difficulty, configure_content_settings,
            determine_personalization_strategy, analyze_learning_patterns, h1, h2]
  · by_cases h1 : (90 : ℚ) ≤ avg <;> by_cases h2 : avg < 65 <;>
      simp [analyze_learning_patterns, h1, h2]

/-- Counterexample for C8 as stated: a user with average score 95 (≥ 90, so the
claim demands the tag "advanced") but completion rate 50 is handed difficulty
"intermediate" by the content-settings pipeline. -/
theorem C8_counterexample :
    (90 : ℚ) ≤ 95 ∧
    pipeline_difficulty 50 [] 95 "medium" = "intermediate" ∧
    ("intermediate" : String) ≠ "advanced" := by
  refine ⟨by norm_num, ?_, by decide⟩
  rfl

/-! ### C4: topic availability is gated, not unconditional -/

/-- C4 (corrected): `ProgressService._get_available_topics` gates topics
sequentially — the first topic is always available, and each later topic is
listed exactly when every earlier topic has status COMPLETED (all its lessons
completed); the scan stops at the first incomplete topic. -/
theorem C4_topics_sequentially_gated (db : Db) (uid : String) :
    progressService_get_available_topics db uid =
      (if statusCompleted (calculate_topic_progress db uid "основы_рисков") then
        (if statusCompleted (calculate_topic_progress db uid "критичность_процессов") then
          ["основы_рисков", "критичность_процессов", "оценка_рисков"]
         else ["основы_рисков", "критичность_процессов"])
       else ["основы_рисков"]) := by
  by_cases h0 : statusCompleted (calculate_topic_progress db uid "основы_рисков") <;>
    by_cases h1 : statusCompleted (calculate_topic_progress db uid "критичность_процессов") <;>
      simp [progressService_get_available_topics, TOPIC_ORDER, availTopicsLoop, h0, h1]

/-- Counterexample for C4 as stated: a brand-new user (empty database) is shown
only the first topic, so the later topics are not reported as unlocked. -/
theorem C4_counterexample :
    progressService_get_available_topics Db.empty "u" = ["основы_рисков"] ∧
    "критичность_процессов" ∉ progressService_get_available_topics Db.empty "u" ∧
    "оценка_рисков" ∉ progressService_get_available_topics Db.empty "u" := by
  refine ⟨rfl, ?_, ?_⟩ <;> · rw [show progressService_get_available_topics Db.empty "u" = ["основы_рисков"] from rfl]; decide

/-! ### C2: lesson unlocking and the str/int key mismatch -/

/-- A user who has completed lesson 1 of the first topic, built through the
database operations themselves. -/
def db_c2 : Db :=
  (update_lesson_progress
    (get_or_create_lesson_progress
      (get_or_create_user Db.empty { user_id := "u" } 0) "u" "основы_рисков" 1 1)
    "u" "основы_рисков" 1 80 true 2).1

/-- C2 (code bug): with lesson 1 of the first topic completed,
`ProgressService._get_available_lessons` still reports only `[1]`, because it
probes the summary's `lessons` dict with the string key `str(lesson_id)` while
`get_user_progress_summary` stores `int` keys (its own comment calls the `int`
keys the fixed behaviour); the repaired duplicate of the same rule in
`menu_keyboards._get_available_lessons` — "use lesson_id directly, without
str()" — unlocks lesson 2 on identical data. -/
theorem C2_unlock_str_key_bug :
    (get_lesson_progress db_c2 "u" "основы_рисков" 1).map (·.is_completed) = some true ∧
    progressService_get_available_lessons
      (get_user_progress_summary db_c2 "u") "основы_рисков" = [1] ∧
    kb_get_available_lessons
      (some (get_user_progress_summary db_c2 "u")) "основы_рисков" = [1, 2] :=
  ⟨rfl, rfl, rfl⟩

/-! ### C1: the supplier's count guarantee -/

theorem count_le_length_pad_questions (topic : String) (count : Nat)
    (qs : List GeneratedQuestion) : count ≤ (pad_questions topic count qs).length := by
  by_cases h : qs.length < count
  · rw [pad_questions, if_pos h]
    exact count_le_length_pad_questions topic count (pad_step topic qs)
  · rw [pad_questions, if_neg h]
    omega
termination_by count - qs.length
decreasing_by
  have := length_lt_pad_step topic qs
  omega

theorem length_get_fallback_questions (topic : String) (lesson_id count : Nat) :
    (get_fallback_questions topic lesson_id count).length = count := by
  have h := count_le_length_pad_questions topic count (bank_questions topic lesson_id)
  simp [get_fallback_questions, List.length_take]
  omega

theorem llm_some_ge_count {docs : List String} {resp : Option (List RawQuestion)}
    {difficulty : String} {count : Nat} {qs : List GeneratedQuestion}
    (h : generate_questions_with_llm docs resp difficulty count = some qs) :
    count ≤ qs.length := by
  unfold generate_questions_with_llm at h
  by_cases hd : docs.isEmpty
  · simp [hd] at h
  · rw [if_neg hd] at h
    cases resp with
    | none => simp at h
    | some items =>
        simp only at h
        split at h
        · injection h with h
          subst h
          assumption
        · exact absurd h (by simp)

/-- C1 (corrected): the supplier never returns fewer than `count` questions and
returns exactly `count` whenever the LLM tier fails — backend unavailable, empty
corpus search, unparsable response, or fewer than `count` schema-valid items —
because the static-bank fallback pads and truncates to exactly `count`.  On a
successful LLM tier it returns every parsed question, which can exceed `count`. -/
theorem C1_supplier_totality (llm_available : Bool) (docs : List String)
    (resp : Option (List RawQuestion)) (topic : String) (lesson_id : Nat)
    (difficulty : String) (count : Nat) :
    count ≤ (generate_adaptive_questions llm_available docs resp topic lesson_id
              difficulty count).length ∧
    ((llm_available = false ∨
      generate_questions_with_llm docs resp difficulty count = none) →
      (generate_adaptive_questions llm_available docs resp topic lesson_id
        difficulty count).length = count) := by
  unfold generate_adaptive_questions
  by_cases hl : llm_available
  · simp only [hl, if_true]
    cases hr : generate_questions_with_llm docs resp difficulty count with
    | none => simp [length_get_fallback_questions]
    | some qs =>
        have hge := llm_some_ge_count hr
        constructor
        · by_cases hne : qs.isEmpty
          · simp [hne, length_get_fallback_questions]
          · simp [hne, hge]
        · rintro (h | h) <;> simp_all
  · simp [hl, length_get_fallback_questions]

/-- Counterexample for C1 as stated: with the backend reachable and returning
four schema-valid items for a request of three, the supplier hands back all
four questions, not exactly three. -/
theorem C1_counterexample :
    (generate_adaptive_questions true ["документ"]
      (some [{ question := some "в", options := some ["а", "б", "в", "г"],
               correct_answer := some 0, explanation := some "п" },
             { question := some "в", options := some ["а", "б", "в", "г"],
               correct_answer := some 0, explanation := some "п" },
             { question := some "в", options := some ["а", "б", "в", "г"],
               correct_answer := some 0, explanation := some "п" },
             { question := some "в", options := some ["а", "б", "в", "г"],
               correct_answer := some 0, explanation := some "п" }])
      "основы_рисков" 1 "intermediate" 3).length = 4 ∧ (4 : Nat) ≠ 3 :=
  ⟨rfl, by decide⟩

/-! ### C6: monotonicity of the record-attempt operation -/

theorem lesson_progress_uutp (db : Db) (rows : List LessonProgress) (uid : String)
    (now : Nat) :
    (update_user_total_progress db rows uid now).lesson_progress =
      db.lesson_progress := by
  unfold update_user_total_progress
  cases findUser db uid <;> rfl

theorem update_lesson_progress_rows (db : Db) (uid tid : String) (lid : Nat)
    (score : ℚ) (flag : Bool) (now : Nat) (p : LessonProgress)
    (h : get_lesson_progress db uid tid lid = some p) :
    (update_lesson_progress db uid tid lid score flag now).1.lesson_progress =
      replaceFirst (lpKey uid tid lid) (updAttempt score flag now) db.lesson_progress := by
  unfold update_lesson_progress
  rw [h]
  simp only
  split
  · rw [lesson_progress_uutp]
  · rfl

theorem get_lesson_progress_after_update (db : Db) (uid tid : String) (lid : Nat)
    (score : ℚ) (flag : Bool) (now : Nat) (p : LessonProgress)
    (h : get_lesson_progress db uid tid lid = some p) :
    get_lesson_progress (update_lesson_progress db uid tid lid score flag now).1 uid tid lid =
      some (updAttempt score flag now p) := by
  have hkey : lpKey uid tid lid p = true := List.find?_some h
  unfold get_lesson_progress
  rw [update_lesson_progress_rows db uid tid lid score flag now p h]
  apply find?_replaceFirst_self h
  simp only [updAttempt, lpKey] at hkey ⊢
  exact hkey

/-- C6: recording an attempt succeeds on an existing record and yields a record
whose `best_score` is exactly the maximum of the previous best and the new score
(hence never decreases), whose `is_completed` is the old flag or-ed with the
new one (hence never reverts to false), and whose attempt counter increments;
iterating this step gives the claim for every sequence of attempts. -/
theorem C6_record_attempt_monotone (db : Db) (uid tid : String) (lid : Nat)
    (score : ℚ) (flag : Bool) (now : Nat) (p : LessonProgress)
    (h : get_lesson_progress db uid tid lid = some p) :
    (update_lesson_progress db uid tid lid score flag now).2 = true ∧
    ∃ p', get_lesson_progress
            (update_lesson_progress db uid tid lid score flag now).1 uid tid lid = some p' ∧
      p'.best_score = max p.best_score score ∧
      p.best_score ≤ p'.best_score ∧
      p'.is_completed = (p.is_completed || flag) ∧
      (p.is_completed = true → p'.is_completed = true) ∧
      p'.attempts = p.attempts + 1 := by
  constructor
  · unfold update_lesson_progress
    rw [h]
  · refine ⟨updAttempt score flag now p,
      get_lesson_progress_after_update db uid tid lid score flag now p h,
      ?_, ?_, ?_, ?_, ?_⟩
    · show (if p.best_score < score then score else p.best_score) = max p.best_score score
      rcases lt_or_le p.best_score score with hlt | hle
      · rw [if_pos hlt, max_eq_right hlt.le]
      · rw [if_neg (not_lt.mpr hle), max_eq_left hle]
    · show p.best_score ≤ (if p.best_score < score then score else p.best_score)
      split
      · next hlt => exact le_of_lt hlt
      · exact le_refl _
    · rfl
    · intro hc
      show (p.is_completed || flag) = true
      rw [hc, Bool.true_or]
    · rfl

/-- Witness for C6: one concrete attempt (score 50, not passed) on an existing
record with best score 80. -/
theorem C6_record_attempt_monotone_witness :
    (update_lesson_progress
      { lesson_progress := [{ user_id := "u", topic_id := "t", lesson_id := 1,
                              is_completed := true, attempts := 1, best_score := 80,
                              last_attempt_score := 80 }] }
      "u" "t" 1 50 false 3).2 = true ∧
    ∃ p', get_lesson_progress
            (update_lesson_progress
              { lesson_progress := [{ user_id := "u", topic_id := "t", lesson_id := 1,
                                      is_completed := true, attempts := 1, best_score := 80,
                                      last_attempt_score := 80 }] }
              "u" "t" 1 50 false 3).1 "u" "t" 1 = some p' ∧
      p'.best_score = max 80 50 ∧
      (80 : ℚ) ≤ p'.best_score ∧
      p'.is_completed = (true || false) ∧
      (true = true → p'.is_completed = true) ∧
      p'.attempts = 1 + 1 :=
  C6_record_attempt_monotone _ "u" "t" 1 50 false 3
    { user_id := "u", topic_id := "t", lesson_id := 1, is_completed := true,
      attempts := 1, best_score := 80, last_attempt_score := 80 } rfl

/-! ### C7: completing a session twice -/

/-- C7 (corrected): a repeated completion for an already-completed session id is
rejected — `get_active_quiz_session` no longer yields that id, so the flow
returns a stale-session error and leaves the database (lesson progress, attempt
counts, aggregates, sessions) entirely unchanged; it does not return the frozen
score again. -/
theorem C7_repeat_completion_rejected (db : Db) (uid : String) (sid cc now : Nat)
    (h : ∀ s, get_active_quiz_session db uid = some s → s.id ≠ sid) :
    show_quiz_result db uid (some sid) cc now = (db, Except.error "invalid-session") := by
  cases hs : get_active_quiz_session db uid with
  | none => simp [show_quiz_result, hs]
  | some s => simp [show_quiz_result, hs, h s hs]

/-- A database whose only session of user "u" is already completed. -/
def db_c7w : Db :=
  { quiz_sessions := [{ id := 1, user_id := "u", topic_id := "основы_рисков",
                        lesson_id := 1, questions := bank_questions "основы_рисков" 1,
                        is_completed := true, score := 200/3,
                        completed_at := some 0 }],
    next_session_id := 2 }

/-- Witness for C7 on a concrete completed session. -/
theorem C7_repeat_completion_rejected_witness :
    show_quiz_result db_c7w "u" (some 1) 2 9 = (db_c7w, Except.error "invalid-session") := by
  have h : ∀ s, get_active_quiz_session db_c7w "u" = some s → s.id ≠ 1 := by
    intro s hs
    rw [show get_active_quiz_session db_c7w "u" = none from rfl] at hs
    cases hs
  exact C7_repeat_completion_rejected db_c7w "u" 1 2 9 h

/-- A database with one fresh active session of three questions for user "u". -/
def db_c7 : Db :=
  { quiz_sessions := [{ id := 1, user_id := "u", topic_id := "основы_рисков",
                        lesson_id := 1, questions := bank_questions "основы_рисков" 1 }],
    next_session_id := 2 }

/-- Counterexample for C7 as stated: completing session 1 succeeds once (score
frozen at 200/3, state `db_c7w`), and the second invocation for the same
session id returns a stale-session error — not the identical frozen score —
while leaving the state `db_c7w` unchanged. -/
theorem C7_counterexample :
    show_quiz_result db_c7 "u" (some 1) 2 0 = (db_c7w, Except.ok (200/3, false)) ∧
    show_quiz_result db_c7w "u" (some 1) 2 1 = (db_c7w, Except.error "invalid-session") := by
  constructor
  · rw [show_quiz_result]
    rw [show get_active_quiz_session db_c7 "u" =
      some { id := 1, user_id := "u", topic_id := "основы_рисков",
             lesson_id := 1, questions := bank_questions "основы_рисков" 1 } from rfl]
    have hlen : (bank_questions "основы_рисков" 1).length = 3 := rfl
    norm_num [hlen, min_score_to_pass, db_c7, db_c7w, complete_quiz_session,
              completeSessionRow, update_lesson_progress, get_lesson_progress,
              check_topic_completion, get_user_progress_summary, findUser,
              get_active_quiz_session, replaceFirst, dictGet?, dictMem, lpKey]
  · rfl

/-! ### C3: the scoring formula -/

theorem quiz_sessions_uutp (db : Db) (rows : List LessonProgress) (uid : String)
    (now : Nat) :
    (update_user_total_progress db rows uid now).quiz_sessions = db.quiz_sessions := by
  unfold update_user_total_progress
  cases findUser db uid <;> rfl

theorem quiz_sessions_update_lesson_progress (db : Db) (uid tid : String) (lid : Nat)
    (score : ℚ) (flag : Bool) (now : Nat) :
    (update_lesson_progress db uid tid lid score flag now).1.quiz_sessions =
      db.quiz_sessions := by
  unfold update_lesson_progress
  cases get_lesson_progress db uid tid lid with
  | none => rfl
  | some p =>
      simp only
      split
      · rw [quiz_sessions_uutp]
      · rfl

theorem quiz_sessions_update_user_position (db : Db) (uid topic : String)
    (lesson now : Nat) :
    (update_user_position db uid topic lesson now).quiz_sessions = db.quiz_sessions := by
  unfold update_user_position
  cases findUser db uid <;> rfl


theorem quiz_sessions_update_user_current_position (db : Db) (uid tid : String)
    (lid now : Nat) :
    (update_user_current_position db uid tid lid now).quiz_sessions =
      db.quiz_sessions := by
  unfold update_user_current_position
  simp only
  repeat' split
  all_goals first
    | rfl
    | rw [quiz_sessions_update_user_position]

theorem quiz_sessions_position_branch (c : Prop) [Decidable c] (d : Db)
    (uid tid : String) (lid now : Nat) :
    (if c then update_user_current_position d uid tid lid now else d).quiz_sessions =
      d.quiz_sessions := by
  split
  · rw [quiz_sessions_update_user_current_position]
  · rfl

theorem complete_quiz_session_sessions (db : Db) (sid : Nat) (sc : ℚ) (now : Nat)
    (s : QuizSession) (hfind : db.quiz_sessions.find? (fun t => t.id == sid) = some s) :
    (complete_quiz_session db sid sc now).1.quiz_sessions =
      replaceFirst (fun t => t.id == sid) (completeSessionRow sc now) db.quiz_sessions := by
  unfold complete_quiz_session
  rw [hfind]

/-- C3 (corrected): for a completed assessment of N >= 1 questions with C
answered correctly, the session-completion flow returns and freezes the score
`(C / N) * 100` exactly — no rounding is applied anywhere on this path — and
`passed = (score >= min_score_to_pass)`, the configured threshold (default 67).
(`QuizService.calculate_score` would truncate to `int((C/N)*100)`; it is not on
this path.) -/
theorem C3_score_formula (db : Db) (uid : String) (sid cc now : Nat) (s : QuizSession)
    (hs : get_active_quiz_session db uid = some s) (hid : s.id = sid)
    (hN : 0 < s.questions.length)
    (hfind : db.quiz_sessions.find? (fun t => t.id == sid) = some s) :
    (show_quiz_result db uid (some sid) cc now).2 =
      Except.ok ((cc : ℚ) / (s.questions.length : ℚ) * 100,
                 decide (min_score_to_pass ≤ (cc : ℚ) / (s.questions.length : ℚ) * 100)) ∧
    (show_quiz_result db uid (some sid) cc now).1.quiz_sessions.find?
        (fun t => t.id == sid) =
      some (completeSessionRow ((cc : ℚ) / (s.questions.length : ℚ) * 100) now s) := by
  unfold show_quiz_result
  rw [hs]
  simp only [hid, ne_eq, not_true_eq_false, if_false, if_pos hN]
  constructor
  · trivial
  · rw [quiz_sessions_position_branch]
    rw [quiz_sessions_update_lesson_progress]
    rw [complete_quiz_session_sessions db sid _ now s hfind]
    apply find?_replaceFirst_self hfind
    simp [completeSessionRow, hid]


/-- A fresh three-question session for the C3 instances. -/
def sess_c3 : QuizSession :=
  { id := 1, user_id := "u", topic_id := "основы_рисков", lesson_id := 1,
    questions := bank_questions "основы_рисков" 1 }

def db_c3 : Db := { quiz_sessions := [sess_c3], next_session_id := 2 }

/-- Witness for C3 on a concrete three-question session with two correct
answers. -/
theorem C3_score_formula_witness :
    (show_quiz_result db_c3 "u" (some 1) 2 0).2 =
      Except.ok (((2 : Nat) : ℚ) / ((sess_c3.questions.length : Nat) : ℚ) * 100,
                 decide (min_score_to_pass ≤
                   ((2 : Nat) : ℚ) / ((sess_c3.questions.length : Nat) : ℚ) * 100)) ∧
    (show_quiz_result db_c3 "u" (some 1) 2 0).1.quiz_sessions.find? (fun t => t.id == 1) =
      some (completeSessionRow
        (((2 : Nat) : ℚ) / ((sess_c3.questions.length : Nat) : ℚ) * 100) 0 sess_c3) :=
  C3_score_formula db_c3 "u" 1 2 0 sess_c3 rfl rfl (by decide) rfl


/-- A minimal question for exercising `QuizService.calculate_score`. -/
def qz : QuizQuestion :=
  { question := "q", options := [], correct_answer := 0, explanation := "e", topic := "t" }

/-- Counterexample for C3 as stated: with C = 2 of N = 3 correct, the stored
score is 200/3 = 66.67 while `round(C/N*100) = 67` (at this input Python's
banker rounding agrees with `round`), so the final score is not the rounded
value; `QuizService.calculate_score` truncates to 66, which is not 67 either. -/
theorem C3_counterexample :
    (show_quiz_result db_c3 "u" (some 1) 2 0).2 = Except.ok (200/3, false) ∧
    (round ((2 : ℚ) / 3 * 100) : ℤ) = 67 ∧
    ((200 : ℚ) / 3) ≠ 67 ∧
    calculate_score [qz, qz, qz] [0, 0, 1] = 66 ∧
    (66 : ℤ) ≠ 67 := by
  refine ⟨?_, by norm_num [round_eq], by norm_num, ?_, by decide⟩
  · rw [show_quiz_result]
    rw [show get_active_quiz_session db_c3 "u" = some sess_c3 from rfl]
    have hlen : (bank_questions "основы_рисков" 1).length = 3 := rfl
    norm_num [hlen, min_score_to_pass, sess_c3]
  · rw [calculate_score, if_neg (by decide)]
    rw [show ((([qz, qz, qz]).zip [0, 0, 1]).filter
          (fun p => p.1.correct_answer == p.2)).length = 2 from rfl]
    norm_num

/-! ### C10: the scope of a progress reset -/

/-- C10: resetting a user deletes exactly that user's LessonProgress rows and
QuizSession rows (active and completed), zeroes the user's aggregates and puts
the position back to lesson 1 of the first topic, leaves every other user's
row and every other user's data untouched, and happens in the one transaction
modelled by the single state transition `reset_user_progress`. -/
theorem C10_reset_scope (db : Db) (uid : String) (now : Nat) (u : UserProgress)
    (h : findUser db uid = some u) :
    (∀ r : LessonProgress, r ∈ (reset_user_progress db uid now).lesson_progress ↔
        r ∈ db.lesson_progress ∧ r.user_id ≠ uid) ∧
    (∀ s : QuizSession, s ∈ (reset_user_progress db uid now).quiz_sessions ↔
        s ∈ db.quiz_sessions ∧ s.user_id ≠ uid) ∧
    findUser (reset_user_progress db uid now) uid = some (resetUserRow now u) ∧
    (∀ v, v ≠ uid → findUser (reset_user_progress db uid now) v = findUser db v) ∧
    (reset_user_progress db uid now).next_session_id = db.next_session_id := by
  refine ⟨?_, ?_, ?_, ?_, rfl⟩
  · intro r
    simp [reset_user_progress, List.mem_filter]
  · intro s
    simp [reset_user_progress, List.mem_filter]
  · unfold findUser at h ⊢
    unfold reset_user_progress
    simp only
    exact find?_replaceFirst_self h
      (by have hk := List.find?_some h; simpa [resetUserRow] using hk)
  · intro v hv
    unfold findUser
    unfold reset_user_progress
    simp only
    apply find?_replaceFirst_frame
    intro x hx
    have hxu : x.user_id = uid := by simpa using hx
    constructor
    · rw [hxu]
      exact beq_eq_false_iff_ne.mpr (Ne.symm hv)
    · show ((resetUserRow now x).user_id == v) = false
      rw [show (resetUserRow now x).user_id = x.user_id from rfl, hxu]
      exact beq_eq_false_iff_ne.mpr (Ne.symm hv)

/-- Two users with progress and sessions, for the C10 witness. -/
def db_c10 : Db :=
  { users := [{ user_id := "a", total_lessons_completed := 1, total_score := 80 },
              { user_id := "b" }],
    lesson_progress :=
      [{ user_id := "a", topic_id := "основы_рисков", lesson_id := 1,
         is_completed := true, attempts := 1, best_score := 80,
         last_attempt_score := 80 },
       { user_id := "b", topic_id := "основы_рисков", lesson_id := 1,
         attempts := 1 }],
    quiz_sessions :=
      [{ id := 1, user_id := "a", topic_id := "основы_рисков", lesson_id := 1,
         questions := [], is_completed := true },
       { id := 2, user_id := "b", topic_id := "основы_рисков", lesson_id := 1,
         questions := [] }],
    next_session_id := 3 }

/-- Witness for C10: reset user "a"; user "b" keeps the row and the lookup. -/
theorem C10_reset_scope_witness :
    findUser (reset_user_progress db_c10 "a" 9) "a" =
      some (resetUserRow 9
        { user_id := "a", total_lessons_completed := 1, total_score := 80 }) ∧
    findUser (reset_user_progress db_c10 "a" 9) "b" = findUser db_c10 "b" ∧
    (reset_user_progress db_c10 "a" 9).next_session_id = db_c10.next_session_id ∧
    ({ user_id := "b", topic_id := "основы_рисков", lesson_id := 1,
       attempts := 1 } : LessonProgress) ∈
      (reset_user_progress db_c10 "a" 9).lesson_progress := by
  have T := C10_reset_scope db_c10 "a" 9
    { user_id := "a", total_lessons_completed := 1, total_score := 80 } rfl
  refine ⟨T.2.2.1, T.2.2.2.1 "b" (by decide), T.2.2.2.2, ?_⟩
  refine (T.1 _).mpr ⟨?_, by decide⟩
  exact List.mem_cons_of_mem _ (List.mem_cons_self _ _)

/-! ### C5: aggregate consistency across all transactions -/

/-- The aggregate-consistency observable the engine actually maintains: the
recompute in `_update_user_total_progress` counts the rows its autoflush=False
session can see — the rows before the first-completion write of the same
transaction — so every stored `total_lessons_completed` trails the fold over
the user's completed `lesson_progress` rows by exactly one once any lesson is
completed (`Nat` subtraction: `count - 1`, which is `0` for a fresh or reset
user with no completed rows). -/
def AggConsistent (db : Db) : Prop :=
  ∀ uid u, findUser db uid = some u →
    u.total_lessons_completed = countCompleted db.lesson_progress uid - 1

/-- Every `lesson_progress` row belongs to an existing `user_progress` row;
`user_middleware.py` guarantees this by calling `get_or_create_user` before any
handler touches lesson state. -/
def RowsOwned (db : Db) : Prop :=
  ∀ r ∈ db.lesson_progress, r.user_id ∈ db.users.map (fun u => u.user_id)

def Inv (db : Db) : Prop := RowsOwned db ∧ AggConsistent db

/-- One database transaction of the engine, as issued by the handlers.  The
guard on `lesson_created` encodes that `UserMiddleware` (src/bot/middleware/
user_middleware.py) creates the user row before any lesson operation runs. -/
inductive Step : Db → Db → Prop where
  | user_created (db : Db) (ud : UserData) (now : Nat) :
      Step db (get_or_create_user db ud now)
  | lesson_created (db : Db) (uid tid : String) (lid now : Nat)
      (h : (findUser db uid).isSome = true) :
      Step db (get_or_create_lesson_progress db uid tid lid now)
  | attempt_recorded (db : Db) (uid tid : String) (lid : Nat) (score : ℚ)
      (flag : Bool) (now : Nat) :
      Step db (update_lesson_progress db uid tid lid score flag now).1
  | session_created (db : Db) (uid tid : String) (lid : Nat)
      (qs : List GeneratedQuestion) (now : Nat) :
      Step db (create_quiz_session db uid tid lid qs now).1
  | session_answers (db : Db) (sid : Nat) (ans : List AnswerRecord) :
      Step db (update_quiz_session_answers db sid ans)
  | session_advanced (db : Db) (sid n : Nat) :
      Step db (update_quiz_session_current db sid n)
  | session_completed (db : Db) (sid : Nat) (sc : ℚ) (now : Nat) :
      Step db (complete_quiz_session db sid sc now).1
  | position_updated (db : Db) (uid topic : String) (lesson now : Nat) :
      Step db (update_user_position db uid topic lesson now)
  | progress_reset (db : Db) (uid : String) (now : Nat) :
      Step db (reset_user_progress db uid now)
  | quiz_finished (db : Db) (uid : String) (sid? : Option Nat) (cc now : Nat) :
      Step db (show_quiz_result db uid sid? cc now).1

/-- States reachable from a fresh deployment through the engine's transactions. -/
inductive Reachable : Db → Prop where
  | empty : Reachable Db.empty
  | step {db db' : Db} (h : Reachable db) (st : Step db db') : Reachable db'

theorem find?_replaceFirst_map {p : α → Bool} {f : α → α} {l : List α}
    (hp : ∀ x, p x = true → p (f x) = true) :
    (replaceFirst p f l).find? p = (l.find? p).map f := by
  induction l with
  | nil => rfl
  | cons a as ih =>
      by_cases hpa : p a
      · rw [replaceFirst, if_pos hpa, List.find?_cons_of_pos _ (hp a hpa),
            List.find?_cons_of_pos _ hpa]
        rfl
      · rw [replaceFirst, if_neg hpa, List.find?_cons_of_neg _ hpa,
            List.find?_cons_of_neg _ hpa, ih]

theorem mem_map_key_replaceFirst {p : α → Bool} {f : α → α} {k : α → κ}
    {l : List α} {a : κ} (ha : a ∈ l.map k)
    (h : ∀ x, p x = true → k (f x) = k x) :
    a ∈ (replaceFirst p f l).map k := by
  rw [map_replaceFirst_key h]
  exact ha

theorem countCompleted_eq_zero_of_absent (db : Db) (v : String)
    (hro : RowsOwned db) (hnone : findUser db v = none) :
    countCompleted db.lesson_progress v = 0 := by
  unfold countCompleted completedRows
  rw [List.length_eq_zero]
  rw [List.filter_eq_nil_iff]
  intro r hr
  have hmem := hro r hr
  unfold findUser at hnone
  rw [List.find?_eq_none] at hnone
  simp only [List.mem_map] at hmem
  obtain ⟨u, hu, huid⟩ := hmem
  have := hnone u hu
  simp only [Bool.and_eq_true, beq_iff_eq]
  rintro ⟨h1, -⟩
  exact this (by rw [huid, h1]; exact beq_self_eq_true v)

theorem inv_users_replace (db : Db) (uid : String) (f : UserProgress → UserProgress)
    (hid : ∀ u, (f u).user_id = u.user_id)
    (htot : ∀ u, (f u).total_lessons_completed = u.total_lessons_completed)
    (h : Inv db) :
    Inv { db with users := replaceFirst (fun u => u.user_id == uid) f db.users } := by
  obtain ⟨hro, hagg⟩ := h
  constructor
  · intro r hr
    show r.user_id ∈ (replaceFirst _ f db.users).map _
    rw [map_replaceFirst_key (fun x _ => hid x)]
    exact hro r hr
  · intro v u hu
    show u.total_lessons_completed = countCompleted db.lesson_progress v - 1
    by_cases hv : v = uid
    · subst hv
      unfold findUser at hu
      rw [find?_replaceFirst_map (fun x hx => by rw [hid x]; exact hx)] at hu
      cases hf : db.users.find? (fun x => x.user_id == v) with
      | none => rw [hf] at hu; cases hu
      | some u0 =>
          rw [hf] at hu
          injection hu with hu
          subst hu
          rw [htot]
          exact hagg v u0 hf
    · unfold findUser at hu
      rw [find?_replaceFirst_frame ?_] at hu
      · exact hagg v u hu
      · intro x hx
        have hxu : x.user_id = uid := by simpa using hx
        constructor
        · simp [hxu]; exact fun hh => hv hh.symm
        · rw [show (f x).user_id = x.user_id from hid x, hxu]
          simp; exact fun hh => hv hh.symm

theorem inv_of_same_users_rows (db db' : Db) (hu : db'.users = db.users)
    (hr : db'.lesson_progress = db.lesson_progress) (h : Inv db) : Inv db' := by
  obtain ⟨hro, hagg⟩ := h
  constructor
  · intro r hrm
    rw [hu]
    exact hro r (hr ▸ hrm)
  · intro v u hfu
    unfold findUser at hfu
    rw [hu] at hfu
    rw [hr]
    exact hagg v u hfu


theorem find?_append_left {p : α → Bool} {l₁ l₂ : List α} {x : α}
    (h : l₁.find? p = some x) : (l₁ ++ l₂).find? p = some x := by
  induction l₁ with
  | nil => simp at h
  | cons a as ih =>
      by_cases hpa : p a
      · rw [List.find?_cons_of_pos _ hpa] at h
        rw [List.cons_append, List.find?_cons_of_pos _ hpa]
        exact h
      · rw [List.find?_cons_of_neg _ hpa] at h
        rw [List.cons_append, List.find?_cons_of_neg _ hpa]
        exact ih h

theorem find?_append_none {p : α → Bool} {l₁ l₂ : List α}
    (h : l₁.find? p = none) : (l₁ ++ l₂).find? p = l₂.find? p := by
  induction l₁ with
  | nil => rfl
  | cons a as ih =>
      by_cases hpa : p a
      · rw [List.find?_cons_of_pos _ hpa] at h
        cases h
      · rw [List.find?_cons_of_neg _ hpa] at h
        rw [List.cons_append, List.find?_cons_of_neg _ hpa]
        exact ih h

theorem countCompleted_append_not_completed (l : List LessonProgress)
    (r0 : LessonProgress) (v : String) (h : r0.is_completed = false) :
    countCompleted (l ++ [r0]) v = countCompleted l v := by
  unfold countCompleted completedRows
  rw [List.filter_append, List.length_append]
  simp [h]

theorem countCompleted_replaceFirst_incr (rows : List LessonProgress)
    (uid tid : String) (lid : Nat) (score : ℚ) (flag : Bool) (now : Nat)
    (p : LessonProgress) (h : rows.find? (lpKey uid tid lid) = some p)
    (hpc : p.is_completed = false) (hf : flag = true) :
    countCompleted (replaceFirst (lpKey uid tid lid) (updAttempt score flag now) rows)
        uid = countCompleted rows uid + 1 := by
  have hkey : lpKey uid tid lid p = true := List.find?_some h
  have hpu : p.user_id = uid := by
    simp only [lpKey, Bool.and_eq_true, beq_iff_eq] at hkey
    exact hkey.1.1
  unfold countCompleted completedRows
  apply filter_length_replaceFirst_incr h
  · simp [hpc]
  · simp [updAttempt, hpu, hpc, hf]

theorem inv_get_or_create_user (db : Db) (ud : UserData) (now : Nat)
    (h : Inv db) : Inv (get_or_create_user db ud now) := by
  unfold get_or_create_user
  cases hf : findUser db ud.user_id with
  | some u0 => exact inv_users_replace db ud.user_id _ (fun u => rfl) (fun u => rfl) h
  | none =>
      obtain ⟨hro, hagg⟩ := h
      constructor
      · intro r hr
        show r.user_id ∈ (db.users ++ _).map _
        rw [List.map_append]
        exact List.mem_append_left _ (hro r hr)
      · intro v u hu
        unfold findUser at hu
        show u.total_lessons_completed = countCompleted db.lesson_progress v - 1
        cases hfv : db.users.find? (fun x => x.user_id == v) with
        | some u1 =>
            rw [find?_append_left hfv] at hu
            injection hu with hu
            subst hu
            exact hagg v u1 hfv
        | none =>
            rw [find?_append_none hfv] at hu
            have humem := List.mem_of_find?_eq_some hu
            rw [List.mem_singleton] at humem
            subst humem
            rw [countCompleted_eq_zero_of_absent db v hro hfv]

theorem inv_get_or_create_lesson_progress (db : Db) (uid tid : String)
    (lid now : Nat) (hg : (findUser db uid).isSome = true) (h : Inv db) :
    Inv (get_or_create_lesson_progress db uid tid lid now) := by
  unfold get_or_create_lesson_progress
  cases get_lesson_progress db uid tid lid with
  | some _ => exact h
  | none =>
      obtain ⟨hro, hagg⟩ := h
      constructor
      · intro r hr
        rcases List.mem_append.mp hr with hr | hr
        · exact hro r hr
        · rw [List.mem_singleton] at hr
          subst hr
          obtain ⟨u, hu⟩ := Option.isSome_iff_exists.mp hg
          unfold findUser at hu
          have hmem := List.mem_of_find?_eq_some hu
          have heq : u.user_id = uid := by simpa using List.find?_some hu
          exact List.mem_map.mpr ⟨u, hmem, heq⟩
      · intro v u hu
        have hbase := hagg v u hu
        show u.total_lessons_completed = countCompleted (db.lesson_progress ++ _) v - 1
        rw [countCompleted_append_not_completed _ _ _ rfl]
        exact hbase


theorem inv_update_user_total_progress (db : Db) (readRows : List LessonProgress)
    (uid : String) (now : Nat)
    (hro : RowsOwned db)
    (hagg_ne : ∀ v u, v ≠ uid → findUser db v = some u →
      u.total_lessons_completed = countCompleted db.lesson_progress v - 1)
    (hcnt : countCompleted readRows uid = countCompleted db.lesson_progress uid - 1) :
    Inv (update_user_total_progress db readRows uid now) := by
  unfold update_user_total_progress
  cases hfu : findUser db uid with
  | none =>
      refine ⟨hro, ?_⟩
      intro v u hu
      have hv : v ≠ uid := by
        intro he
        subst he
        rw [hu] at hfu
        cases hfu
      exact hagg_ne v u hv hu
  | some u0 =>
      simp only
      constructor
      · intro r hr
        show r.user_id ∈ (replaceFirst _ _ db.users).map _
        exact mem_map_key_replaceFirst (hro r hr) (fun x _ => rfl)
      · intro v u hu
        show u.total_lessons_completed = countCompleted db.lesson_progress v - 1
        by_cases hv : v = uid
        · subst hv
          unfold findUser at hu
          dsimp only at hu
          rw [find?_replaceFirst_map ?_] at hu
          · cases hf : db.users.find? (fun x => x.user_id == v) with
            | none => rw [hf] at hu; cases hu
            | some u1 =>
                rw [hf] at hu
                injection hu with hu
                subst hu
                exact hcnt
          · exact fun x hx => hx
        · unfold findUser at hu
          dsimp only at hu
          rw [find?_replaceFirst_frame ?_] at hu
          · exact hagg_ne v u hv hu
          · intro x hx
            have hxu : x.user_id = uid := by simpa using hx
            refine ⟨?_, ?_⟩ <;>
              · show (_ == v) = false
                rw [hxu]
                simp
                exact fun hh => hv hh.symm

theorem inv_update_lesson_progress (db : Db) (uid tid : String) (lid : Nat)
    (score : ℚ) (flag : Bool) (now : Nat) (h : Inv db) :
    Inv (update_lesson_progress db uid tid lid score flag now).1 := by
  obtain ⟨hro, hagg⟩ := h
  unfold update_lesson_progress
  cases hp : get_lesson_progress db uid tid lid with
  | none => exact ⟨hro, hagg⟩
  | some p =>
      simp only
      have hkey : lpKey uid tid lid p = true := List.find?_some hp
      have hpu : p.user_id = uid := by
        simp only [lpKey, Bool.and_eq_true, beq_iff_eq] at hkey
        exact hkey.1.1
      have hro1 : RowsOwned { db with lesson_progress := replaceFirst (lpKey uid tid lid) (updAttempt score flag now) db.lesson_progress } := by
        intro r hr
        rcases replaceFirst_mem hr with hr | ⟨x, hx, -, rfl⟩
        · exact hro r hr
        · show (updAttempt score flag now x).user_id ∈ _
          rw [show (updAttempt score flag now x).user_id = x.user_id from rfl]
          exact hro x hx
      have hcount_ne : ∀ v, v ≠ uid →
          countCompleted (replaceFirst (lpKey uid tid lid) (updAttempt score flag now)
            db.lesson_progress) v = countCompleted db.lesson_progress v := by
        intro v hv
        unfold countCompleted completedRows
        apply filter_length_replaceFirst_of_find? hp
        have hfalse : (p.user_id == v) = false := by
          rw [hpu]
          simp
          exact fun hh => hv hh.symm
        simp [updAttempt, hfalse]
      split
      · next hfc =>
          rw [Bool.and_eq_true] at hfc
          have hflag : flag = true := hfc.1
          have hpc : p.is_completed = false := by simpa using hfc.2
          apply inv_update_user_total_progress _ _ uid now hro1
          · intro v u hv hu
            have hbase := hagg v u hu
            show u.total_lessons_completed = countCompleted _ v - 1
            rw [hcount_ne v hv]
            exact hbase
          · show countCompleted db.lesson_progress uid =
              countCompleted (replaceFirst (lpKey uid tid lid)
                (updAttempt score flag now) db.lesson_progress) uid - 1
            rw [countCompleted_replaceFirst_incr db.lesson_progress uid tid lid
                  score flag now p hp hpc hflag]
            omega
      · next hnfc =>
          refine ⟨hro1, ?_⟩
          intro v u hu
          have hbase := hagg v u hu
          show u.total_lessons_completed = countCompleted _ v - 1
          by_cases hv : v = uid
          · subst hv
            have hcomp : (p.is_completed || flag) = p.is_completed := by
              rcases hb : flag with - | -
              · simp
              · rw [hb] at hnfc
                rcases hc : p.is_completed with - | -
                · rw [hc] at hnfc
                  simp at hnfc
                · simp
            have hcc : countCompleted (replaceFirst (lpKey v tid lid)
                (updAttempt score flag now) db.lesson_progress) v =
                countCompleted db.lesson_progress v := by
              unfold countCompleted completedRows
              apply filter_length_replaceFirst_of_find? hp
              simp [updAttempt, hcomp]
            rw [hcc]
            exact hbase
          · rw [hcount_ne v hv]
            exact hbase

theorem inv_create_quiz_session (db : Db) (uid tid : String) (lid : Nat)
    (qs : List GeneratedQuestion) (now : Nat) (h : Inv db) :
    Inv (create_quiz_session db uid tid lid qs now).1 :=
  inv_of_same_users_rows db _ rfl rfl h

theorem inv_update_quiz_session_answers (db : Db) (sid : Nat)
    (ans : List AnswerRecord) (h : Inv db) :
    Inv (update_quiz_session_answers db sid ans) :=
  inv_of_same_users_rows db _ rfl rfl h

theorem inv_update_quiz_session_current (db : Db) (sid n : Nat) (h : Inv db) :
    Inv (update_quiz_session_current db sid n) :=
  inv_of_same_users_rows db _ rfl rfl h

theorem inv_complete_quiz_session (db : Db) (sid : Nat) (sc : ℚ) (now : Nat)
    (h : Inv db) : Inv (complete_quiz_session db sid sc now).1 := by
  unfold complete_quiz_session
  cases db.quiz_sessions.find? (fun s => s.id == sid) with
  | none => exact h
  | some _ => exact inv_of_same_users_rows db _ rfl rfl h

theorem inv_update_user_position (db : Db) (uid topic : String) (lesson now : Nat)
    (h : Inv db) : Inv (update_user_position db uid topic lesson now) := by
  unfold update_user_position
  cases findUser db uid with
  | none => exact h
  | some _ => exact inv_users_replace db uid _ (fun u => rfl) (fun u => rfl) h

theorem inv_update_user_current_position (db : Db) (uid tid : String)
    (lid now : Nat) (h : Inv db) :
    Inv (update_user_current_position db uid tid lid now) := by
  unfold update_user_current_position
  simp only
  repeat' split
  all_goals first
    | exact h
    | exact inv_update_user_position _ _ _ _ _ h


theorem inv_reset_user_progress (db : Db) (uid : String) (now : Nat)
    (h : Inv db) : Inv (reset_user_progress db uid now) := by
  obtain ⟨hro, hagg⟩ := h
  unfold reset_user_progress
  simp only
  constructor
  · intro r hr
    have hr1 := (List.mem_filter.mp hr).1
    exact mem_map_key_replaceFirst (hro r hr1) (fun x _ => rfl)
  · intro v u hu
    unfold findUser at hu
    dsimp only at hu
    by_cases hv : v = uid
    · subst hv
      rw [find?_replaceFirst_map ?_] at hu
      · cases hf : db.users.find? (fun x => x.user_id == v) with
        | none => rw [hf] at hu; cases hu
        | some u1 =>
            rw [hf] at hu
            injection hu with hu
            subst hu
            have hcz : countCompleted (db.lesson_progress.filter
                (fun r => !(r.user_id == v))) v = 0 := by
              unfold countCompleted completedRows
              rw [List.length_eq_zero, List.filter_eq_nil_iff]
              intro r hr
              have hrf := (List.mem_filter.mp hr).2
              simp only [Bool.not_eq_true, Bool.and_eq_true, beq_iff_eq] at hrf ⊢
              rintro ⟨h1, -⟩
              rw [h1] at hrf
              simp at hrf
            show (0 : Nat) = countCompleted (db.lesson_progress.filter
                (fun r => !(r.user_id == v))) v - 1
            rw [hcz]
      · exact fun x hx => hx
    · rw [find?_replaceFirst_frame ?_] at hu
      · have hbase := hagg v u hu
        have hcc : countCompleted (db.lesson_progress.filter
            (fun r => !(r.user_id == uid))) v = countCompleted db.lesson_progress v := by
          unfold countCompleted completedRows
          apply filter_length_filter_out
          intro x hx
          simp only [Bool.and_eq_true, beq_iff_eq] at hx
          have hxf : (x.user_id == uid) = false := by
            rw [hx.1]
            exact beq_eq_false_iff_ne.mpr hv
          simp [hxf]
        show u.total_lessons_completed = countCompleted (db.lesson_progress.filter
            (fun r => !(r.user_id == uid))) v - 1
        rw [hcc]
        exact hbase
      · intro x hx
        have hxu : x.user_id = uid := by simpa using hx
        refine ⟨?_, ?_⟩
        · rw [hxu]
          exact beq_eq_false_iff_ne.mpr (Ne.symm hv)
        · show ((resetUserRow now x).user_id == v) = false
          rw [show (resetUserRow now x).user_id = x.user_id from rfl, hxu]
          exact beq_eq_false_iff_ne.mpr (Ne.symm hv)

theorem inv_show_quiz_result (db : Db) (uid : String) (sid? : Option Nat)
    (cc now : Nat) (h : Inv db) : Inv (show_quiz_result db uid sid? cc now).1 := by
  unfold show_quiz_result
  cases sid? with
  | none => exact h
  | some sid =>
      cases get_active_quiz_session db uid with
      | none => exact h
      | some s =>
          dsimp only
          by_cases hid : s.id ≠ sid
          · rw [if_pos hid]
            exact h
          · rw [if_neg hid]
            dsimp only
            split <;> split <;>
              first
                | exact inv_update_user_current_position _ _ _ _ _
                    (inv_update_lesson_progress _ _ _ _ _ _ _
                      (inv_complete_quiz_session _ _ _ _ h))
                | exact inv_update_lesson_progress _ _ _ _ _ _ _
                    (inv_complete_quiz_session _ _ _ _ h)

theorem inv_empty : Inv Db.empty := by
  constructor
  · intro r hr
    simp [Db.empty] at hr
  · intro v u hu
    simp [findUser, Db.empty] at hu

theorem step_preserves {db db' : Db} (h : Inv db) (st : Step db db') : Inv db' := by
  cases st with
  | user_created ud now => exact inv_get_or_create_user db ud now h
  | lesson_created uid tid lid now hg =>
      exact inv_get_or_create_lesson_progress db uid tid lid now hg h
  | attempt_recorded uid tid lid score flag now =>
      exact inv_update_lesson_progress db uid tid lid score flag now h
  | session_created uid tid lid qs now =>
      exact inv_create_quiz_session db uid tid lid qs now h
  | session_answers sid ans => exact inv_update_quiz_session_answers db sid ans h
  | session_advanced sid n => exact inv_update_quiz_session_current db sid n h
  | session_completed sid sc now => exact inv_complete_quiz_session db sid sc now h
  | position_updated uid topic lesson now =>
      exact inv_update_user_position db uid topic lesson now h
  | progress_reset uid now => exact inv_reset_user_progress db uid now h
  | quiz_finished uid sid? cc now => exact inv_show_quiz_result db uid sid? cc now h

theorem reachable_inv (db : Db) (h : Reachable db) : Inv db := by
  induction h with
  | empty => exact inv_empty
  | step h st ih => exact step_preserves ih st

/-- C5 (corrected): in every reachable state, every stored
`total_lessons_completed` equals the count of that user's completed
`lesson_progress` rows minus one (`Nat` subtraction, so zero for a fresh or
reset user with no completed rows).  The aggregate is recomputed as a pure
COUNT over rows inside the first-completion transaction — never kept as an
incremental counter — but the autoflush=False session evaluates that COUNT
against the rows as of the start of the transaction, before its own pending
row write, so the committed value permanently trails the true count by the one
lesson whose completion triggered the recompute.  (The companion `total_score`
clause fails the same way: after the very first completion the stored mean is
0 while one completed row exists, see the counterexample.) -/
theorem C5_completed_count_invariant (db : Db) (h : Reachable db) :
    ∀ uid u, findUser db uid = some u →
      u.total_lessons_completed = countCompleted db.lesson_progress uid - 1 :=
  (reachable_inv db h).2


/-- A user who just completed their first lesson, for the C5 instances. -/
def db_c5w : Db :=
  (update_lesson_progress
    (get_or_create_lesson_progress
      (get_or_create_user Db.empty { user_id := "w" } 0) "w" "основы_рисков" 1 1)
    "w" "основы_рисков" 1 80 true 2).1

/-- Witness for C5 on a concrete three-transaction history. -/
theorem C5_completed_count_invariant_witness :
    Reachable db_c5w ∧
    (findUser db_c5w "w").map (fun u => u.total_lessons_completed) =
      some (countCompleted db_c5w.lesson_progress "w" - 1) := by
  have hr : Reachable db_c5w :=
    Reachable.step (Reachable.step (Reachable.step Reachable.empty
      (Step.user_created Db.empty { user_id := "w" } 0))
      (Step.lesson_created _ "w" "основы_рисков" 1 1 rfl))
      (Step.attempt_recorded _ "w" "основы_рисков" 1 80 true 2)
  refine ⟨hr, ?_⟩
  have hsome : (findUser db_c5w "w").isSome = true := rfl
  obtain ⟨u, hu⟩ := Option.isSome_iff_exists.mp hsome
  rw [hu]
  exact congrArg some (C5_completed_count_invariant db_c5w hr "w" u hu)

/-- Counterexample for C5 as stated: after the very first completion (score 80,
state `db_c5w`), the committed state holds one completed row yet stores
`total_lessons_completed = 0` and `total_score = 0` — the recompute's COUNT and
AVG queries ran in the same autoflush=False session as the still-pending row
write and therefore read the pre-write rows, where no lesson is completed.
Both aggregate equalities of the claim fail on this reachable state. -/
theorem C5_counterexample :
    Reachable db_c5w ∧
    (findUser db_c5w "w").map (fun u => u.total_lessons_completed) = some 0 ∧
    countCompleted db_c5w.lesson_progress "w" = 1 ∧
    (0 : Nat) ≠ 1 ∧
    (findUser db_c5w "w").map (fun u => u.total_score) = some 0 ∧
    avgBestScore db_c5w.lesson_progress "w" = 80 ∧
    (0 : ℚ) ≠ 80 := by
  refine ⟨?_, rfl, rfl, by decide, rfl, ?_, by norm_num⟩
  · exact Reachable.step (Reachable.step (Reachable.step Reachable.empty
      (Step.user_created Db.empty { user_id := "w" } 0))
      (Step.lesson_created _ "w" "основы_рисков" 1 1 rfl))
      (Step.attempt_recorded _ "w" "основы_рисков" 1 80 true 2)
  · rw [show db_c5w.lesson_progress =
        [{ user_id := "w", topic_id := "основы_рисков", lesson_id := 1,
           is_completed := true, attempts := 1, best_score := 80,
           last_attempt_score := 80, started_at := some 1, completed_at := some 2,
           last_attempt_at := some 2 }] from rfl]
    norm_num [avgBestScore, completedRows]

end RiskBot
